import Mathlib

/-!
Verification of the resilient inference-client core of `dockerfile_ai`.

The Python source (`src/dockerfile_ai/resilience.py`, plus the CLI module's
streaming decoder and Dockerfile-block extractor) is shallowly embedded here:

* float-valued quantities (delays, timestamps) are modelled as exact
  rationals `ℚ`; where CPython float semantics matter (the `**` operator
  raising `OverflowError`) a separate checked model makes the overflow
  explicit;
* `time.time()` readings are explicit `ℚ` parameters of each operation;
* a fallible Python operation is an `Except` value, and a sequence of
  invocation outcomes is a function `Nat → Except ε α`;
* the jitter draw `random.random()` is an explicit parameter `r` with
  `0 ≤ r < 1`.
-/

/-- Decidable equality for `Except`, so that concrete runs of the embedded
operations can be checked by `decide`. -/
instance {ε α : Type} [DecidableEq ε] [DecidableEq α] :
    DecidableEq (Except ε α) := fun x y =>
  match x, y with
  | .ok a, .ok b =>
    match decEq a b with
    | isTrue h => isTrue (by rw [h])
    | isFalse h => isFalse (fun hh => h (Except.ok.inj hh))
  | .error a, .error b =>
    match decEq a b with
    | isTrue h => isTrue (by rw [h])
    | isFalse h => isFalse (fun hh => h (Except.error.inj hh))
  | .ok _, .error _ => isFalse (fun hh => Except.noConfusion hh)
  | .error _, .ok _ => isFalse (fun hh => Except.noConfusion hh)

/-- Kernel-reducible minimum on `ℚ`, the embedding of Python's `min`
(equal to Mathlib's `min`, see `ratMin_eq_min`). -/
def ratMin (a b : ℚ) : ℚ := if a ≤ b then a else b

/-- Kernel-reducible power on `ℚ`, the embedding of the value of Python's
`**` on a nonnegative integer exponent (equal to Mathlib's `^`, see
`ratPow_eq_pow`). -/
def ratPow (q : ℚ) : Nat → ℚ
  | 0 => 1
  | n + 1 => q * ratPow q n

/-- Embedding of `RetryConfig.__init__` (resilience.py, lines 15-39): the five
retry-policy fields.  Python floats are modelled as exact rationals. -/
structure RetryConfig where
  max_retries : Nat
  initial_delay : ℚ
  max_delay : ℚ
  exponential_base : ℚ
  jitter : Bool
deriving DecidableEq

/-- The constructor's default arguments: `RetryConfig()` in Python. -/
def defaultRetryConfig : RetryConfig :=
  { max_retries := 3, initial_delay := 1, max_delay := 32,
    exponential_base := 2, jitter := true }

/-- Embedding of `RetryConfig.get_delay` (resilience.py, lines 41-59) under
exact rational arithmetic: `delay = min(initial_delay * base ** attempt,
max_delay)`, then `delay * (0.5 + random.random())` when jitter is on.
The jitter draw `random.random()` is the explicit parameter `r`. -/
def get_delay (cfg : RetryConfig) (attempt : Nat) (r : ℚ) : ℚ :=
  let delay := ratMin (cfg.initial_delay * ratPow cfg.exponential_base attempt) cfg.max_delay
  if cfg.jitter then delay * (1/2 + r) else delay

/-- The least positive rational that IEEE-754 binary64 round-to-nearest-even
sends to `+inf`: `2^1024 - 2^970`, the midpoint between the largest finite
double `2^1024 - 2^971` and `2^1024` (the midpoint itself rounds to the even
candidate `2^1024`, hence overflows). -/
def floatOverflowBound : ℚ := 2 ^ (1024 : Nat) - 2 ^ (970 : Nat)

/-- Whether CPython's float `base ** attempt` raises `OverflowError`: the
float power routine raises exactly when the rounded result is infinite,
i.e. when the exact value reaches `floatOverflowBound` (bases of interest
are positive, `exponential_base > 1`). -/
def powOverflows (base : ℚ) (attempt : Nat) : Bool :=
  decide (floatOverflowBound ≤ ratPow base attempt)

/-- Embedding of `RetryConfig.get_delay` that keeps CPython's one float-level
effect in this expression: `self.exponential_base ** attempt` raises
`OverflowError` when its value overflows binary64 (`min`, `*` and `+` on
floats do not raise in CPython; an overflowing `*` yields `inf`, which the
following `min` would cap anyway, so `**` is the only failure point). -/
def get_delay_checked (cfg : RetryConfig) (attempt : Nat) (r : ℚ) :
    Except String ℚ :=
  if powOverflows cfg.exponential_base attempt then .error "OverflowError"
  else .ok (get_delay cfg attempt r)

/-- Embedding of the loop of `retry_async` (resilience.py, lines 62-108).
`d attempt` stands for the value `config.get_delay(attempt)` computed before
the sleep of that attempt (jitter draws included), `outs i` for the outcome
of the `i`-th invocation of `func`.  The result records the final value or
re-raised last exception, the number of invocations made, and the delays
passed to `asyncio.sleep`, in order. -/
def retry_async_go (d : Nat → ℚ) (outs : Nat → Except ε α) :
    Nat → Nat → Except ε α × Nat × List ℚ
  | attempt, 0 =>
    match outs attempt with
    | .ok v => (.ok v, 1, [])
    | .error e => (.error e, 1, [])
  | attempt, rem + 1 =>
    match outs attempt with
    | .ok v => (.ok v, 1, [])
    | .error _ =>
      let rest := retry_async_go d outs (attempt + 1) rem
      (rest.1, rest.2.1 + 1, d attempt :: rest.2.2)

/-- `retry_async(func, config=cfg)`: the loop runs attempts `0` to
`cfg.max_retries`, so `rem = cfg.max_retries` further attempts remain after
the first.  `rs i` is the jitter draw of attempt `i`'s delay computation. -/
def retry_async_run (cfg : RetryConfig) (rs : Nat → ℚ) (outs : Nat → Except ε α) :
    Except ε α × Nat × List ℚ :=
  retry_async_go (fun i => get_delay cfg i (rs i)) outs 0 cfg.max_retries

/-- Embedding of the loop of `retry_sync` (resilience.py, lines 111-157),
translated separately from its own source text; it differs from
`retry_async` only in waiting with `time.sleep` instead of
`asyncio.sleep`, which this embedding records identically as the list of
delays. -/
def retry_sync_go (d : Nat → ℚ) (outs : Nat → Except ε α) :
    Nat → Nat → Except ε α × Nat × List ℚ
  | attempt, 0 =>
    match outs attempt with
    | .ok v => (.ok v, 1, [])
    | .error e => (.error e, 1, [])
  | attempt, rem + 1 =>
    match outs attempt with
    | .ok v => (.ok v, 1, [])
    | .error _ =>
      let rest := retry_sync_go d outs (attempt + 1) rem
      (rest.1, rest.2.1 + 1, d attempt :: rest.2.2)

/-- `retry_sync(func, config=cfg)`, analogous to `retry_async_run`. -/
def retry_sync_run (cfg : RetryConfig) (rs : Nat → ℚ) (outs : Nat → Except ε α) :
    Except ε α × Nat × List ℚ :=
  retry_sync_go (fun i => get_delay cfg i (rs i)) outs 0 cfg.max_retries

/-- Embedding of the mutable state of `CircuitBreaker` (resilience.py,
lines 255-276): the two constructor parameters, the name, and the three
mutated fields with their initial values given by `initCB`.  Timestamps
(`time.time()` values) are exact rationals. -/
structure CBState where
  failure_threshold : Nat
  recovery_timeout : ℚ
  name : String
  failure_count : Nat
  last_failure_time : Option ℚ
  is_open : Bool
deriving DecidableEq

/-- `CircuitBreaker.__init__`: `failure_count = 0`, `last_failure_time =
None`, `is_open = False`. -/
def initCB (threshold : Nat) (timeout : ℚ) (name : String) : CBState :=
  { failure_threshold := threshold, recovery_timeout := timeout, name := name,
    failure_count := 0, last_failure_time := none, is_open := false }

/-- Embedding of `CircuitBreaker.record_success` (resilience.py,
lines 278-282). -/
def record_success (s : CBState) : CBState :=
  { s with failure_count := 0, is_open := false }

/-- Embedding of `CircuitBreaker.record_failure` (resilience.py,
lines 284-294): increment the count, stamp the failure time `now`, and open
when the new count reaches the threshold. -/
def record_failure (s : CBState) (now : ℚ) : CBState :=
  let s1 := { s with failure_count := s.failure_count + 1,
                     last_failure_time := some now }
  if s1.failure_threshold ≤ s1.failure_count then { s1 with is_open := true }
  else s1

/-- Embedding of `CircuitBreaker.should_attempt` (resilience.py,
lines 296-316): returns the boolean the method returns together with the
state after the call (the recovery branch mutates the breaker).  `now` is
the `time.time()` reading; `elapsed > recovery_timeout` is
`recovery_timeout < now - t`. -/
def should_attempt (s : CBState) (now : ℚ) : Bool × CBState :=
  if s.is_open = false then (true, s)
  else
    match s.last_failure_time with
    | none => (true, s)
    | some t =>
      if s.recovery_timeout < now - t then
        (true, { s with is_open := false, failure_count := 0 })
      else (false, s)

/-- The message of the `OllamaConnectionError` that `call_async` raises when
the breaker rejects the call (resilience.py, lines 338-341). -/
def breaker_open_message (name : String) : String :=
  "Circuit breaker " ++ name ++ " is open. Service appears to be unavailable."

/-- Result of one `call_async`: the wrapped operation's value, its re-raised
original failure, or the breaker's own `OllamaConnectionError`. -/
inductive CallOutcome (ε α : Type) where
  | ok (v : α)
  | opFailed (e : ε)
  | connectionError (msg : String)
deriving DecidableEq

/-- Embedding of `CircuitBreaker.call_async` (resilience.py, lines 318-349).
`out` is what the single invocation of the wrapped operation would produce;
`nowCheck` and `nowFail` are the clock readings of the `should_attempt`
check and of a possible `record_failure`.  The result carries the outcome,
the breaker state after the call, and how many times the operation was
invoked. -/
def call_async (s : CBState) (nowCheck nowFail : ℚ) (out : Except ε α) :
    CallOutcome ε α × CBState × Nat :=
  let chk := should_attempt s nowCheck
  if chk.1 = false then
    (.connectionError (breaker_open_message s.name), chk.2, 0)
  else
    match out with
    | .ok v => (.ok v, record_success chk.2, 1)
    | .error e => (.opFailed e, record_failure chk.2 nowFail, 1)

/-- One externally driven event of a `CircuitBreaker`'s life: a
`record_success()`, a `record_failure()` at clock reading `now`, or a
`should_attempt()` check at clock reading `now`. -/
inductive CBEvent where
  | success
  | failed (now : ℚ)
  | attempt (now : ℚ)

/-- The state after one event. -/
def cbStep (s : CBState) : CBEvent → CBState
  | .success => record_success s
  | .failed now => record_failure s now
  | .attempt now => (should_attempt s now).2

/-- The state after a sequence of events. -/
def cbRun (s : CBState) (events : List CBEvent) : CBState :=
  events.foldl cbStep s

/-- A run of consecutive `record_failure` calls at the given clock
readings, in order. -/
def record_failures (s : CBState) (ts : List ℚ) : CBState :=
  ts.foldl record_failure s

/-- The error kinds of `exceptions.py` that the claims mention:
`OllamaConnectionError` (connectivity) and `OllamaResponseError`
(response validity), each carrying its message. -/
inductive PyExc where
  | ollamaConnectionError (msg : String)
  | ollamaResponseError (msg : String)
deriving DecidableEq

/-- Whether the first list is a leading segment of the second
(character lists). -/
def leadsWith : List Char → List Char → Bool
  | [], _ => true
  | _ :: _, [] => false
  | a :: as, b :: bs => a == b && leadsWith as bs

/-- Python's substring test `needle in hay` on character lists: some suffix
of the haystack starts with the needle. -/
def hasSubstr (needle : List Char) : List Char → Bool
  | [] => needle.isEmpty
  | c :: rest => leadsWith needle (c :: rest) || hasSubstr needle rest

/-- How the request layer of `check_model_available` can fail, mirroring the
two handlers of resilience.py lines 245-252: an `httpx.HTTPError` (which
includes the `raise_for_status` of line 230) or any other exception (for
example a JSON decoding error). -/
inductive FetchFailure where
  | httpError (msg : String)
  | otherError (msg : String)
deriving DecidableEq

/-- Embedding of `check_model_available` (resilience.py, lines 205-252).
`fetched` abstracts the HTTP GET of `/api/tags` followed by
`raise_for_status` and `response.json()`: on success it yields, for each
entry of `data["models"]`, the entry's `"name"` field (`none` when the field
is missing, which `m.get("name", "")` turns into `""`).  The body then tests
`any(model in m for m in models)` — loose substring containment. -/
def check_model_available (model : String)
    (fetched : Except FetchFailure (List (Option String))) : Except PyExc Bool :=
  match fetched with
  | .error (.httpError e) =>
    .error (.ollamaConnectionError ("Error checking model availability: " ++ e))
  | .error (.otherError e) =>
    .error (.ollamaConnectionError ("Unexpected error checking model: " ++ e))
  | .ok entries =>
    let models := entries.map (fun m => m.getD "")
    .ok (models.any (fun m => hasSubstr model.toList m.toList))

/-- Drop leading JSON inter-token whitespace of a line. -/
def skipWs : List Char → List Char
  | [] => []
  | c :: rest =>
    if c == ' ' || c == '\t' || c == '\r' then skipWs rest else c :: rest

/-- Consume the expected literal from the front of the input, or fail. -/
def dropLit : List Char → List Char → Option (List Char)
  | [], s => some s
  | _ :: _, [] => none
  | c :: cs, x :: xs => if c == x then dropLit cs xs else none

/-- After an opening double quote: the text up to the closing quote, and the
remaining input.  The fragments of the stream carry plain text, so no escape
sequences are modelled. -/
def scanQuoted : List Char → Option (List Char × List Char)
  | [] => none
  | c :: rest =>
    if c == '"' then some ([], rest)
    else
      match scanQuoted rest with
      | some (txt, rest1) => some (c :: txt, rest1)
      | none => none

/-- A JSON boolean literal at the front of the input. -/
def scanBool (s : List Char) : Option (Bool × List Char) :=
  match dropLit ("true".toList) s with
  | some rest => some (true, rest)
  | none =>
    match dropLit ("false".toList) s with
    | some rest => some (false, rest)
    | none => none

/-- One decoded unit of the line-delimited response stream: the spec's
StreamFragment, with the wire field names `response` and `done`. -/
structure StreamFragment where
  response : String
  done : Bool
deriving DecidableEq

/-- Modelled from the spec: the per-line parse of the streaming decoder of
`cli.query_ollama`, whose module is not among the repository files under
`src/` (only `tests/test_cli.py` exercises it).  §4.5 of the spec says each
line is one JSON object with at least `{response: string, done: bool}`; the
model accepts exactly that object shape, with optional whitespace between
tokens, and yields `none` for a malformed line. -/
def parseFragment (line : List Char) : Option StreamFragment := do
  let s1 ← dropLit ("\x7b".toList) (skipWs line)
  let s2 ← dropLit ("\"response\"".toList) (skipWs s1)
  let s3 ← dropLit (":".toList) (skipWs s2)
  let s4 ← dropLit ("\"".toList) (skipWs s3)
  let (txt, s5) ← scanQuoted s4
  let s6 ← dropLit (",".toList) (skipWs s5)
  let s7 ← dropLit ("\"done\"".toList) (skipWs s6)
  let s8 ← dropLit (":".toList) (skipWs s7)
  let (b, s9) ← scanBool (skipWs s8)
  let s10 ← dropLit ("\x7d".toList) (skipWs s9)
  if (skipWs s10).isEmpty then some ⟨String.mk txt, b⟩ else none

/-- Split a character list into its newline-separated lines. -/
def splitLines : List Char → List (List Char)
  | [] => [[]]
  | c :: rest =>
    if c == '\n' then [] :: splitLines rest
    else
      match splitLines rest with
      | [] => [[c]]
      | l :: ls => (c :: l) :: ls

/-- Modelled from the spec: the accumulator of §4.5 and the AnalysisResult of
§3 — concatenate the `response` fields in arrival order and stop at (and
including) the first fragment with `done = true`. -/
def accumulate : List StreamFragment → String
  | [] => ""
  | f :: fs => if f.done then f.response else f.response ++ accumulate fs

/-- Modelled from the spec: the streaming response decoder of
`cli.query_ollama` (module not under `src/`).  Per §4.5: parse every line,
skip malformed lines, concatenate in line order stopping at the first
`done = true`; a body with no parseable line — the empty body included —
fails with the response-validity error kind (`OllamaResponseError`,
exceptions.py lines 28-31) instead of returning an empty analysis. -/
def decode_stream (body : String) : Except PyExc String :=
  let frags := (splitLines body.toList).filterMap parseFragment
  if frags.isEmpty then
    .error (.ollamaResponseError "Empty or unparseable response from Ollama")
  else .ok (accumulate frags)

/-- The backtick character, which delimits a markdown code fence. -/
def backquote : Char := Char.ofNat 96

/-- Split a character list on the occurrences of a triple-backtick fence,
left to right without overlap (the semantics of splitting a Python string on
the three-character fence). -/
def splitOnFence : List Char → List (List Char)
  | a :: b :: c :: rest =>
    if a == backquote && b == backquote && c == backquote then
      [] :: splitOnFence rest
    else
      match splitOnFence (b :: c :: rest) with
      | [] => [[a]]
      | l :: ls => (a :: l) :: ls
  | other => [other]

/-- Drop the fence's own line — the optional language label such as
`dockerfile` and its newline; everything after it is the block's content. -/
def dropHeaderLine : List Char → List Char
  | [] => []
  | c :: rest => if c == '\n' then rest else dropHeaderLine rest

/-- A line containing only whitespace. -/
def isBlankLine (l : List Char) : Bool := l.all (fun c => c.isWhitespace)

/-- Drop leading and trailing blank lines of a block. -/
def trimBlankLines (ls : List (List Char)) : List (List Char) :=
  ((ls.dropWhile isBlankLine).reverse.dropWhile isBlankLine).reverse

/-- Rejoin lines with newlines. -/
def joinLines : List (List Char) → List Char
  | [] => []
  | [l] => l
  | l :: ls => l ++ '\n' :: joinLines ls

/-- Modelled from the spec: `cli.extract_dockerfile_content` (module not
under `src/`; only `tests/test_cli.py` exercises it).  Per §4.6: take the
first region delimited by triple-backtick fences (none, or an unclosed
opening fence, yields the empty result), drop the optional language-label
line, trim leading and trailing blank lines, and surface the block only when
its first non-blank line begins with `FROM`; otherwise return the empty
string.  A pure total function — the extractor never raises. -/
def extract_dockerfile_content (text : String) : String :=
  match splitOnFence text.toList with
  | _ :: block :: _ :: _ =>
    let content := joinLines (trimBlankLines (splitLines (dropHeaderLine block)))
    if leadsWith ("FROM".toList) content then String.mk content else ""
  | _ => ""

/-- The inductive invariant behind C10: whenever the breaker is open, a last
failure time is recorded and the count has reached the threshold. -/
def CBInv (s : CBState) : Prop :=
  s.is_open = true →
    (∃ t : ℚ, s.last_failure_time = some t) ∧ s.failure_threshold ≤ s.failure_count

/-- The plain concatenation of fragment texts in order (the reference point
for what `accumulate` keeps). -/
def concatTexts : List StreamFragment → String
  | [] => ""
  | f :: fs => f.response ++ concatTexts fs

/-- The three-character fence. -/
def fenceChars : List Char := [backquote, backquote, backquote]

/-- `ratMin` is Mathlib's `min`. -/
theorem ratMin_eq_min (a b : ℚ) : ratMin a b = min a b := (min_def a b).symm

/-- `ratPow` is Mathlib's monoid power. -/
theorem ratPow_eq_pow (q : ℚ) (n : Nat) : ratPow q n = q ^ n := by
  induction n with
  | zero => simp [ratPow]
  | succ n ih => rw [ratPow, ih, pow_succ, mul_comm]


/-- C4: for every RetryPolicy with jitter disabled and every attempt ≥ 0,
`get_delay(attempt)` equals `min(initial_delay * exponential_base ^ attempt,
max_delay)`; in particular `get_delay(0) = initial_delay` when
`initial_delay ≤ max_delay`. -/
theorem claim_C4_delay_formula :
    (∀ (cfg : RetryConfig) (attempt : Nat) (r : ℚ), cfg.jitter = false →
      get_delay cfg attempt r =
        min (cfg.initial_delay * cfg.exponential_base ^ attempt) cfg.max_delay) ∧
    (∀ (cfg : RetryConfig) (r : ℚ), cfg.jitter = false →
      cfg.initial_delay ≤ cfg.max_delay →
      get_delay cfg 0 r = cfg.initial_delay) := by
  constructor
  · intro cfg attempt r hj
    simp [get_delay, hj, ratMin_eq_min, ratPow_eq_pow]
  · intro cfg r hj hle
    simp [get_delay, hj, ratMin_eq_min, ratPow_eq_pow]
    exact hle

/-- Witness for C4: the default policy with jitter off gives
`get_delay(3) = 1 * 2^3 = 8` and `get_delay(0) = initial_delay = 1`. -/
theorem claim_C4_witness :
    get_delay { defaultRetryConfig with jitter := false } 3 0 = 8 ∧
    get_delay { defaultRetryConfig with jitter := false } 0 0 = 1 := by
  constructor
  · rw [claim_C4_delay_formula.1 _ 3 0 rfl]
    rw [show ({ defaultRetryConfig with jitter := false } : RetryConfig).initial_delay = 1 from rfl,
        show ({ defaultRetryConfig with jitter := false } : RetryConfig).exponential_base = 2 from rfl,
        show ({ defaultRetryConfig with jitter := false } : RetryConfig).max_delay = 32 from rfl]
    rw [min_eq_left (by norm_num)]
    norm_num
  · rw [claim_C4_delay_formula.2 _ 0 rfl (by norm_num [defaultRetryConfig])]
    rfl

/-- C5: the overflow half of the claim fails on the code — at the default
policy (`initial_delay = 1.0`, `exponential_base = 2.0`, `max_delay = 32.0`)
and `attempt = 1024`, CPython's `2.0 ** 1024` overflows binary64 and
`get_delay` raises `OverflowError` instead of completing (first conjunct,
the evaluation at the failing input).  The bound halves of the claim do hold
wherever the computation completes: with jitter disabled the result never
exceeds `max_delay`, and with jitter enabled and a draw `0 ≤ r < 1` the
result lies in `[0.5x, 1.5x)` of the capped no-jitter value `x`, hence is
nonnegative and below `1.5 * max_delay` (remaining conjuncts). -/
theorem claim_C5_delay_safety :
    get_delay_checked defaultRetryConfig 1024 0 = .error "OverflowError" ∧
    (∀ (cfg : RetryConfig) (attempt : Nat) (r : ℚ), cfg.jitter = false →
      get_delay cfg attempt r ≤ cfg.max_delay) ∧
    (∀ (cfg : RetryConfig) (attempt : Nat) (r : ℚ),
      cfg.jitter = true → 0 ≤ r → r < 1 →
      0 < cfg.initial_delay → cfg.initial_delay ≤ cfg.max_delay →
      1 < cfg.exponential_base →
      min (cfg.initial_delay * cfg.exponential_base ^ attempt) cfg.max_delay / 2
          ≤ get_delay cfg attempt r ∧
      get_delay cfg attempt r <
        3 / 2 * min (cfg.initial_delay * cfg.exponential_base ^ attempt) cfg.max_delay ∧
      0 ≤ get_delay cfg attempt r ∧
      get_delay cfg attempt r < 3 / 2 * cfg.max_delay) := by
  refine ⟨?_, ?_, ?_⟩
  · norm_num [get_delay_checked, powOverflows, ratPow_eq_pow, floatOverflowBound,
      defaultRetryConfig]
  · intro cfg attempt r hj
    simp [get_delay, hj, ratMin_eq_min, ratPow_eq_pow]
  · intro cfg attempt r hj hr0 hr1 hpos hle hbase
    have hbpos : (0 : ℚ) < cfg.exponential_base ^ attempt :=
      pow_pos (lt_trans zero_lt_one hbase) attempt
    have hxpos : 0 < min (cfg.initial_delay * cfg.exponential_base ^ attempt) cfg.max_delay :=
      lt_min (mul_pos hpos hbpos) (lt_of_lt_of_le hpos hle)
    set x := min (cfg.initial_delay * cfg.exponential_base ^ attempt) cfg.max_delay with hx
    have hgd : get_delay cfg attempt r = x * (1 / 2 + r) := by
      simp [get_delay, hj, ratMin_eq_min, ratPow_eq_pow, hx]
    have hxle : x ≤ cfg.max_delay := min_le_right _ _
    refine ⟨?_, ?_, ?_, ?_⟩
    · rw [hgd]
      calc x / 2 = x * (1 / 2) := by ring
        _ ≤ x * (1 / 2 + r) := by
            apply mul_le_mul_of_nonneg_left (by linarith) (le_of_lt hxpos)
    · rw [hgd]
      calc x * (1 / 2 + r) < x * (3 / 2) := by
            apply mul_lt_mul_of_pos_left (by linarith) hxpos
        _ = 3 / 2 * x := by ring
    · rw [hgd]
      exact mul_nonneg (le_of_lt hxpos) (by linarith)
    · rw [hgd]
      calc x * (1 / 2 + r) < x * (3 / 2) := by
            apply mul_lt_mul_of_pos_left (by linarith) hxpos
        _ ≤ cfg.max_delay * (3 / 2) := by
            apply mul_le_mul_of_nonneg_right hxle (by norm_num)
        _ = 3 / 2 * cfg.max_delay := by ring

/-- Witness for C5: at the default policy with jitter on, attempt 0 and draw
`r = 1/2`, the delay is nonnegative and below `1.5 * max_delay = 48`. -/
theorem claim_C5_witness :
    0 ≤ get_delay defaultRetryConfig 0 (1 / 2) ∧
    get_delay defaultRetryConfig 0 (1 / 2) < 48 := by
  have h := claim_C5_delay_safety.2.2 defaultRetryConfig 0 (1 / 2) rfl
    (by norm_num) (by norm_num)
    (by norm_num [defaultRetryConfig]) (by norm_num [defaultRetryConfig])
    (by norm_num [defaultRetryConfig])
  refine ⟨h.2.2.1, ?_⟩
  have := h.2.2.2
  rw [show defaultRetryConfig.max_delay = 32 from rfl] at this
  linarith

/-- If the first `k` invocations from `start` fail and invocation `start + k`
succeeds with `v`, with `k ≤ rem` attempts of slack, the retry loop returns
`v` after exactly `k + 1` invocations. -/
theorem retry_async_go_ok (d : Nat → ℚ) (outs : Nat → Except ε α) (v : α) :
    ∀ (k start rem : Nat), k ≤ rem →
      (∀ i, i < k → ∃ e, outs (start + i) = .error e) →
      outs (start + k) = .ok v →
      (retry_async_go d outs start rem).1 = .ok v ∧
      (retry_async_go d outs start rem).2.1 = k + 1 := by
  intro k
  induction k with
  | zero =>
    intro start rem _ _ hsucc
    rw [Nat.add_zero] at hsucc
    cases rem <;> simp [retry_async_go, hsucc]
  | succ k ih =>
    intro start rem hk hfail hsucc
    obtain ⟨e, he⟩ := hfail 0 (Nat.succ_pos k)
    rw [Nat.add_zero] at he
    obtain ⟨rem', rfl⟩ : ∃ rem', rem = rem' + 1 := by
      cases rem with
      | zero => exact absurd hk (by omega)
      | succ n => exact ⟨n, rfl⟩
    have ih1 := ih (start + 1) rem' (by omega)
      (fun i hi => by
        obtain ⟨e1, he1⟩ := hfail (i + 1) (by omega)
        exact ⟨e1, by rw [show start + 1 + i = start + (i + 1) by omega]; exact he1⟩)
      (by rw [show start + 1 + k = start + (k + 1) by omega]; exact hsucc)
    simp [retry_async_go, he, ih1.1, ih1.2]

/-- If every invocation from `start` through `start + rem` fails with the
errors given by `es`, the retry loop makes exactly `rem + 1` invocations and
re-raises the last failure `es (start + rem)` unmodified. -/
theorem retry_async_go_allfail (d : Nat → ℚ) (outs : Nat → Except ε α) (es : Nat → ε) :
    ∀ (rem start : Nat),
      (∀ i, i ≤ rem → outs (start + i) = .error (es (start + i))) →
      (retry_async_go d outs start rem).1 = .error (es (start + rem)) ∧
      (retry_async_go d outs start rem).2.1 = rem + 1 := by
  intro rem
  induction rem with
  | zero =>
    intro start hfail
    have h0 := hfail 0 (le_refl 0)
    rw [Nat.add_zero] at h0
    simp [retry_async_go, h0]
  | succ rem ih =>
    intro start hfail
    have h0 := hfail 0 (Nat.zero_le _)
    rw [Nat.add_zero] at h0
    have ih1 := ih (start + 1)
      (fun i hi => by
        have := hfail (i + 1) (by omega)
        rw [show start + (i + 1) = start + 1 + i by omega] at this
        exact this)
    rw [show start + 1 + rem = start + (rem + 1) by omega] at ih1
    simp [retry_async_go, h0, ih1.1, ih1.2]

/-- The two retry loops are the same function of the delay sequence and the
invocation outcomes. -/
theorem retry_sync_go_eq_async (d : Nat → ℚ) (outs : Nat → Except ε α) :
    ∀ (rem start : Nat),
      retry_sync_go d outs start rem = retry_async_go d outs start rem := by
  intro rem
  induction rem with
  | zero => intro start; cases h : outs start <;> simp [retry_sync_go, retry_async_go, h]
  | succ rem ih =>
    intro start
    cases h : outs start <;> simp [retry_sync_go, retry_async_go, h, ih (start + 1)]

/-- C1: for every operation and every RetryPolicy with `max_retries = n ≥ 0`
(the embedding's `max_retries : Nat` makes `n ≥ 0` implicit): if the
operation fails on its first `k` invocations (`k < n + 1`) and succeeds on
invocation `k + 1`, both `retry_async` and `retry_sync` return that success
value and invoke the operation exactly `k + 1` times; if the operation fails
on every invocation, both invoke it exactly `n + 1` times and raise exactly
the failure produced by the final invocation, unmodified. -/
theorem claim_C1_retry_semantics :
    (∀ (ε α : Type) (cfg : RetryConfig) (rs : Nat → ℚ) (outs : Nat → Except ε α)
        (k : Nat) (v : α),
      k < cfg.max_retries + 1 →
      (∀ i, i < k → ∃ e, outs i = .error e) →
      outs k = .ok v →
      (retry_async_run cfg rs outs).1 = .ok v ∧
      (retry_async_run cfg rs outs).2.1 = k + 1 ∧
      (retry_sync_run cfg rs outs).1 = .ok v ∧
      (retry_sync_run cfg rs outs).2.1 = k + 1) ∧
    (∀ (ε α : Type) (cfg : RetryConfig) (rs : Nat → ℚ) (outs : Nat → Except ε α)
        (es : Nat → ε),
      (∀ i, i ≤ cfg.max_retries → outs i = .error (es i)) →
      (retry_async_run cfg rs outs).1 = .error (es cfg.max_retries) ∧
      (retry_async_run cfg rs outs).2.1 = cfg.max_retries + 1 ∧
      (retry_sync_run cfg rs outs).1 = .error (es cfg.max_retries) ∧
      (retry_sync_run cfg rs outs).2.1 = cfg.max_retries + 1) := by
  constructor
  · intro ε α cfg rs outs k v hk hfail hsucc
    have h := retry_async_go_ok (fun i => get_delay cfg i (rs i)) outs v k 0
      cfg.max_retries (by omega)
      (fun i hi => by rw [Nat.zero_add]; exact hfail i hi)
      (by rw [Nat.zero_add]; exact hsucc)
    refine ⟨h.1, h.2, ?_, ?_⟩
    · rw [retry_sync_run, retry_sync_go_eq_async]; exact h.1
    · rw [retry_sync_run, retry_sync_go_eq_async]; exact h.2
  · intro ε α cfg rs outs es hfail
    have h := retry_async_go_allfail (fun i => get_delay cfg i (rs i)) outs es
      cfg.max_retries 0
      (fun i hi => by rw [Nat.zero_add]; exact hfail i hi)
    rw [Nat.zero_add] at h
    refine ⟨h.1, h.2, ?_, ?_⟩
    · rw [retry_sync_run, retry_sync_go_eq_async]; exact h.1
    · rw [retry_sync_run, retry_sync_go_eq_async]; exact h.2

/-- Witness for C1: with `max_retries = 2`, an operation failing once then
returning 42 succeeds after exactly 2 invocations, and an operation that
always fails is invoked exactly 3 times and the raised error is the final
invocation's failure. -/
theorem claim_C1_witness :
    ((retry_async_run { defaultRetryConfig with max_retries := 2 } (fun _ => 0)
        (fun i => if i < 1 then Except.error "boom" else Except.ok 42)).1 = .ok 42 ∧
     (retry_async_run { defaultRetryConfig with max_retries := 2 } (fun _ => 0)
        (fun i => if i < 1 then Except.error "boom" else Except.ok 42)).2.1 = 2) ∧
    ((retry_sync_run { defaultRetryConfig with max_retries := 2 } (fun _ => 0)
        (fun i => (Except.error (toString i) : Except String Nat))).1 = .error "2" ∧
     (retry_sync_run { defaultRetryConfig with max_retries := 2 } (fun _ => 0)
        (fun i => (Except.error (toString i) : Except String Nat))).2.1 = 3) := by
  constructor
  · have h := claim_C1_retry_semantics.1 String Nat
      { defaultRetryConfig with max_retries := 2 } (fun _ => 0)
      (fun i => if i < 1 then Except.error "boom" else Except.ok 42) 1 42
      (by decide)
      (fun i hi => ⟨"boom", by rw [show i = 0 by omega]; rfl⟩)
      (by decide)
    exact ⟨h.1, h.2.1⟩
  · have h := claim_C1_retry_semantics.2 String Nat
      { defaultRetryConfig with max_retries := 2 } (fun _ => 0)
      (fun i => (Except.error (toString i) : Except String Nat))
      (fun i => toString i)
      (fun i _ => rfl)
    exact ⟨h.2.2.1, h.2.2.2⟩

/-- C8: `retry_sync` and `retry_async` have identical retry semantics — for
the same RetryPolicy, the same jitter draws and the same sequence of
per-invocation outcomes, the two runs are equal: same result (success value
or final failure), same number of invocations, and the same computed delays;
they differ only in how the recorded waits are performed. -/
theorem claim_C8_sync_equals_async :
    ∀ (ε α : Type) (cfg : RetryConfig) (rs : Nat → ℚ) (outs : Nat → Except ε α),
      retry_sync_run cfg rs outs = retry_async_run cfg rs outs := by
  intro ε α cfg rs outs
  rw [retry_sync_run, retry_async_run, retry_sync_go_eq_async]

/-- One `record_failure` increments the count, stamps the time, and leaves
the two configuration parameters unchanged. -/
theorem record_failure_fields (s : CBState) (now : ℚ) :
    (record_failure s now).failure_count = s.failure_count + 1 ∧
    (record_failure s now).last_failure_time = some now ∧
    (record_failure s now).failure_threshold = s.failure_threshold ∧
    (record_failure s now).recovery_timeout = s.recovery_timeout := by
  rw [record_failure]
  split <;> simp

/-- A run of `record_failure` calls adds its length to the count and leaves
the configuration parameters unchanged. -/
theorem record_failures_fields (ts : List ℚ) :
    ∀ s : CBState,
      (record_failures s ts).failure_count = s.failure_count + ts.length ∧
      (record_failures s ts).failure_threshold = s.failure_threshold ∧
      (record_failures s ts).recovery_timeout = s.recovery_timeout := by
  induction ts with
  | nil => intro s; simp [record_failures]
  | cons t ts ih =>
    intro s
    have hstep := record_failure_fields s t
    have htail := ih (record_failure s t)
    have hdef : record_failures s (t :: ts) = record_failures (record_failure s t) ts := rfl
    rw [hdef]
    refine ⟨?_, ?_, ?_⟩
    · rw [htail.1, hstep.1, List.length_cons]; omega
    · rw [htail.2.1, hstep.2.2.1]
    · rw [htail.2.2, hstep.2.2.2]

/-- After a nonempty run of `record_failure` calls, the recorded last failure
time is the last call's timestamp. -/
theorem record_failures_last_time (s : CBState) (ts : List ℚ) (tl : ℚ) :
    (record_failures s (ts ++ [tl])).last_failure_time = some tl := by
  rw [record_failures, List.foldl_append, List.foldl_cons, List.foldl_nil]
  exact (record_failure_fields _ tl).2.1

/-- A nonempty run of `record_failure` calls that brings the count to the
threshold leaves the breaker open. -/
theorem record_failures_opens (ts : List ℚ) :
    ∀ s : CBState, ts ≠ [] →
      s.failure_threshold ≤ s.failure_count + ts.length →
      (record_failures s ts).is_open = true := by
  induction ts with
  | nil => intro s h; exact absurd rfl h
  | cons t ts ih =>
    intro s _ hcount
    rw [record_failures, List.foldl_cons]
    cases ts with
    | nil =>
      rw [List.foldl_nil, record_failure]
      have : s.failure_threshold ≤ s.failure_count + 1 := by
        simpa using hcount
      rw [if_pos (by simpa using this)]
    | cons t2 ts2 =>
      refine ih (record_failure s t) (by simp) ?_
      have hstep := record_failure_fields s t
      rw [hstep.1, hstep.2.2.1]
      simp only [List.length_cons] at hcount ⊢
      omega

/-- While the count stays below the threshold, `record_failure` leaves the
breaker closed. -/
theorem record_failures_stays_closed (ts : List ℚ) :
    ∀ s : CBState, s.is_open = false →
      s.failure_count + ts.length < s.failure_threshold →
      (record_failures s ts).is_open = false := by
  induction ts with
  | nil => intro s hopen _; simpa [record_failures] using hopen
  | cons t ts ih =>
    intro s hopen hcount
    rw [record_failures, List.foldl_cons]
    have hstep := record_failure_fields s t
    have hstepopen : (record_failure s t).is_open = false := by
      rw [record_failure]
      rw [if_neg (by simp only [List.length_cons] at hcount; simp; omega)]
      simpa using hopen
    refine ih (record_failure s t) hstepopen ?_
    rw [hstep.1, hstep.2.2.1]
    simp only [List.length_cons] at hcount
    omega

/-- C2: from any state, after exactly `failure_threshold` consecutive
`record_failure` calls (no intervening `record_success`), the breaker is
open with the last call's timestamp recorded, and `should_attempt` is false
while less than `recovery_timeout` has elapsed since that last failure;
`record_success` unconditionally zeroes the count and closes the breaker, so
`should_attempt` is true afterward; a `should_attempt` made while open after
more than `recovery_timeout` past the recorded failure returns true, closes
the breaker and zeroes the count; and fewer than `failure_threshold`
consecutive failures from a closed zero-count state leave the breaker
closed. -/
theorem claim_C2_circuit_breaker_state_machine :
    (∀ (s : CBState) (ts : List ℚ) (tl : ℚ),
      (ts ++ [tl]).length = s.failure_threshold →
      (record_failures s (ts ++ [tl])).is_open = true ∧
      (record_failures s (ts ++ [tl])).last_failure_time = some tl ∧
      (∀ now : ℚ, now - tl < s.recovery_timeout →
        (should_attempt (record_failures s (ts ++ [tl])) now).1 = false)) ∧
    (∀ s : CBState,
      (record_success s).failure_count = 0 ∧
      (record_success s).is_open = false ∧
      ∀ now : ℚ, (should_attempt (record_success s) now).1 = true) ∧
    (∀ (s : CBState) (t now : ℚ),
      s.is_open = true → s.last_failure_time = some t →
      s.recovery_timeout < now - t →
      (should_attempt s now).1 = true ∧
      (should_attempt s now).2.is_open = false ∧
      (should_attempt s now).2.failure_count = 0) ∧
    (∀ (s : CBState) (ts : List ℚ),
      s.is_open = false → s.failure_count = 0 →
      ts.length < s.failure_threshold →
      (record_failures s ts).is_open = false) := by
  refine ⟨?_, ?_, ?_, ?_⟩
  · intro s ts tl hlen
    have hopen : (record_failures s (ts ++ [tl])).is_open = true := by
      refine record_failures_opens (ts ++ [tl]) s (by simp) ?_
      rw [hlen]; omega
    have hlast := record_failures_last_time s ts tl
    have hto := (record_failures_fields (ts ++ [tl]) s).2.2
    refine ⟨hopen, hlast, ?_⟩
    intro now hnow
    have hnot : ¬ ((record_failures s (ts ++ [tl])).recovery_timeout < now - tl) := by
      rw [hto]; linarith
    simp [should_attempt, hopen, hlast, hnot]
  · intro s
    refine ⟨rfl, rfl, ?_⟩
    intro now
    simp [should_attempt, record_success]
  · intro s t now hopen hlast hrec
    simp [should_attempt, hopen, hlast, hrec]
  · intro s ts hopen hcount hlen
    refine record_failures_stays_closed ts s hopen ?_
    omega

/-- Witness for C2: a fresh breaker with threshold 2 and timeout 60 opens
after failures at times 1 and 5, records `last_failure_time = 5`, and
rejects an attempt at time 30 (elapsed 25 < 60). -/
theorem claim_C2_witness :
    (record_failures (initCB 2 60 "cb") [1, 5]).is_open = true ∧
    (record_failures (initCB 2 60 "cb") [1, 5]).last_failure_time = some 5 ∧
    (should_attempt (record_failures (initCB 2 60 "cb") [1, 5]) 30).1 = false := by
  have h := claim_C2_circuit_breaker_state_machine.1 (initCB 2 60 "cb") [1] 5 (by decide)
  exact ⟨h.1, h.2.1, h.2.2 30 (by norm_num [initCB])⟩

/-- C3: for every operation: if `should_attempt()` is false at the time of a
`call_async(operation)` call, `call_async` raises the connectivity-kind
error naming the breaker and the operation is never invoked (0 invocations);
otherwise it invokes the operation exactly once — no internal retry — and on
success calls `record_success` and returns the result, while on failure
calls `record_failure` and re-raises the operation's original failure
unchanged. -/
theorem claim_C3_call_async_contract :
    ∀ (ε α : Type) (s : CBState) (nc nf : ℚ) (out : Except ε α),
      ((should_attempt s nc).1 = false →
        (call_async s nc nf out).1 = .connectionError (breaker_open_message s.name) ∧
        (call_async s nc nf out).2.2 = 0) ∧
      ((should_attempt s nc).1 = true →
        (call_async s nc nf out).2.2 = 1 ∧
        (∀ v : α, out = .ok v →
          (call_async s nc nf out).1 = .ok v ∧
          (call_async s nc nf out).2.1 = record_success (should_attempt s nc).2) ∧
        (∀ e : ε, out = .error e →
          (call_async s nc nf out).1 = .opFailed e ∧
          (call_async s nc nf out).2.1 = record_failure (should_attempt s nc).2 nf)) := by
  intro ε α s nc nf out
  constructor
  · intro hfalse
    simp [call_async, hfalse]
  · intro htrue
    refine ⟨?_, ?_, ?_⟩
    · cases out <;> simp [call_async, htrue]
    · intro v hv
      subst hv
      simp [call_async, htrue]
    · intro e he
      subst he
      simp [call_async, htrue]

/-- Witness for C3: a breaker opened by one failure (threshold 1) at time 5,
checked at time 10 (within the 60-second recovery window), rejects the call
with the connectivity error naming it and never invokes the operation; the
same breaker checked when closed invokes the operation once. -/
theorem claim_C3_witness :
    ((call_async (record_failures (initCB 1 60 "svc") [5]) 10 10
        (Except.ok 7 : Except String Nat)).1 =
      .connectionError (breaker_open_message "svc") ∧
     (call_async (record_failures (initCB 1 60 "svc") [5]) 10 10
        (Except.ok 7 : Except String Nat)).2.2 = 0) ∧
    (call_async (initCB 1 60 "svc") 10 10 (Except.ok 7 : Except String Nat)).2.2 = 1 := by
  constructor
  · have hfalse : (should_attempt (record_failures (initCB 1 60 "svc") [5]) 10).1 = false := by
      have h := claim_C2_circuit_breaker_state_machine.1 (initCB 1 60 "svc") [] 5 (by decide)
      exact h.2.2 10 (by norm_num [initCB])
    have h := (claim_C3_call_async_contract String Nat
      (record_failures (initCB 1 60 "svc") [5]) 10 10 (Except.ok 7)).1 hfalse
    exact ⟨h.1, h.2⟩
  · have htrue : (should_attempt (initCB 1 60 "svc") 10).1 = true := by
      simp [should_attempt, initCB]
    exact ((claim_C3_call_async_contract String Nat (initCB 1 60 "svc") 10 10
      (Except.ok 7)).2 htrue).1

/-- The open flag after one `record_failure`: set when the new count reaches
the threshold, otherwise carried over. -/
theorem record_failure_is_open (s : CBState) (now : ℚ) :
    (record_failure s now).is_open =
      (decide (s.failure_threshold ≤ s.failure_count + 1) || s.is_open) := by
  rw [record_failure]
  split <;> rename_i h <;> simp at h <;> simp [h]

/-- Every single breaker event preserves the invariant. -/
theorem cbStep_preserves_inv (s : CBState) (e : CBEvent) (h : CBInv s) :
    CBInv (cbStep s e) := by
  cases e with
  | success =>
    intro hopen
    simp [cbStep, record_success] at hopen
  | failed now =>
    show CBInv (record_failure s now)
    intro hopen
    refine ⟨⟨now, (record_failure_fields s now).2.1⟩, ?_⟩
    rw [(record_failure_fields s now).2.2.1, (record_failure_fields s now).1]
    by_cases hc : s.failure_threshold ≤ s.failure_count + 1
    · exact hc
    · have hopen' : s.is_open = true := by
        have hopen2 := hopen
        rw [record_failure_is_open s now] at hopen2
        simpa [hc] using hopen2
      have := (h hopen').2
      omega
  | attempt now =>
    show CBInv (should_attempt s now).2
    by_cases hopen : s.is_open = false
    · have hs : (should_attempt s now).2 = s := by simp [should_attempt, hopen]
      rw [hs]; exact h
    · have hopen' : s.is_open = true := by
        cases hb : s.is_open
        · exact absurd hb hopen
        · rfl
      cases hlt : s.last_failure_time with
      | none =>
        have hs : (should_attempt s now).2 = s := by simp [should_attempt, hopen', hlt]
        rw [hs]; exact h
      | some t =>
        by_cases hrec : s.recovery_timeout < now - t
        · have hs : (should_attempt s now).2 =
              { s with is_open := false, failure_count := 0 } := by
            simp [should_attempt, hopen', hlt, hrec]
          rw [hs]
          intro habs
          simp at habs
        · have hs : (should_attempt s now).2 = s := by
            simp [should_attempt, hopen', hlt, hrec]
          rw [hs]; exact h

/-- A whole event sequence preserves the invariant. -/
theorem cbRun_preserves_inv (events : List CBEvent) :
    ∀ s : CBState, CBInv s → CBInv (cbRun s events) := by
  induction events with
  | nil => intro s h; exact h
  | cons e es ih => intro s h; exact ih (cbStep s e) (cbStep_preserves_inv s e h)

/-- No breaker event changes the configured threshold. -/
theorem cbStep_threshold (s : CBState) (e : CBEvent) :
    (cbStep s e).failure_threshold = s.failure_threshold := by
  cases e with
  | success => rfl
  | failed now => exact (record_failure_fields s now).2.2.1
  | attempt now =>
    show (should_attempt s now).2.failure_threshold = s.failure_threshold
    rw [should_attempt]
    split
    · rfl
    · split
      · rfl
      · split <;> rfl

/-- The threshold after any event sequence is the constructor's. -/
theorem cbRun_threshold (events : List CBEvent) :
    ∀ s : CBState, (cbRun s events).failure_threshold = s.failure_threshold := by
  induction events with
  | nil => intro s; rfl
  | cons e es ih =>
    intro s
    rw [show cbRun s (e :: es) = cbRun (cbStep s e) es from rfl, ih, cbStep_threshold]

/-- C10: in every state reachable from the freshly constructed breaker
(count 0, no last failure time, closed) by `record_success`,
`record_failure` and `should_attempt` calls, an open breaker has a recorded
`last_failure_time` and `failure_count ≥ failure_threshold`; consequently
the open-with-no-recorded-failure-time configuration that would make
`should_attempt`'s early-return-true branch fire is unreachable. -/
theorem claim_C10_open_state_invariant :
    ∀ (thr : Nat) (timeout : ℚ) (nm : String) (events : List CBEvent),
      ((cbRun (initCB thr timeout nm) events).is_open = true →
        (∃ t : ℚ, (cbRun (initCB thr timeout nm) events).last_failure_time = some t) ∧
        thr ≤ (cbRun (initCB thr timeout nm) events).failure_count) ∧
      ¬((cbRun (initCB thr timeout nm) events).is_open = true ∧
        (cbRun (initCB thr timeout nm) events).last_failure_time = none) := by
  intro thr timeout nm events
  have hinv := cbRun_preserves_inv events (initCB thr timeout nm)
    (by intro habs; simp [initCB] at habs)
  have hthr := cbRun_threshold events (initCB thr timeout nm)
  constructor
  · intro hopen
    have h := hinv hopen
    refine ⟨h.1, ?_⟩
    have hle := h.2
    rw [hthr] at hle
    exact hle
  · rintro ⟨hopen, hnone⟩
    obtain ⟨t, ht⟩ := (hinv hopen).1
    rw [hnone] at ht
    exact Option.noConfusion ht

/-- Witness for C10: the state after one failure at time 5 on a threshold-1
breaker is open, and the theorem yields its recorded failure time and
count bound. -/
theorem claim_C10_witness :
    (∃ t : ℚ, (cbRun (initCB 1 60 "cb") [CBEvent.failed 5]).last_failure_time = some t) ∧
    1 ≤ (cbRun (initCB 1 60 "cb") [CBEvent.failed 5]).failure_count := by
  exact (claim_C10_open_state_invariant 1 60 "cb" [CBEvent.failed 5]).1 (by decide)

/-- `leadsWith` decides the leading-segment property. -/
theorem leadsWith_iff (n : List Char) :
    ∀ h : List Char, leadsWith n h = true ↔ ∃ post, h = n ++ post := by
  induction n with
  | nil => intro h; simp [leadsWith]
  | cons a as ih =>
    intro h
    cases h with
    | nil => simp [leadsWith]
    | cons b bs =>
      rw [leadsWith, Bool.and_eq_true, beq_iff_eq, ih bs]
      constructor
      · rintro ⟨rfl, post, rfl⟩
        exact ⟨post, rfl⟩
      · rintro ⟨post, hpost⟩
        rw [List.cons_append] at hpost
        obtain ⟨h1, h2⟩ := List.cons.inj hpost
        exact ⟨h1.symm, post, h2⟩

/-- `hasSubstr` decides the substring property: Python's `needle in hay`. -/
theorem hasSubstr_iff (n : List Char) :
    ∀ h : List Char, hasSubstr n h = true ↔ ∃ pre post, h = pre ++ n ++ post := by
  intro h
  induction h with
  | nil =>
    rw [hasSubstr]
    constructor
    · intro hempty
      exact ⟨[], [], by simp [List.isEmpty_iff.mp hempty]⟩
    · rintro ⟨pre, post, hp⟩
      rcases List.append_eq_nil.mp hp.symm with ⟨h1, _⟩
      rcases List.append_eq_nil.mp h1 with ⟨_, h3⟩
      simp [h3]
  | cons c rest ih =>
    rw [hasSubstr, Bool.or_eq_true, leadsWith_iff, ih]
    constructor
    · rintro (⟨post, hpost⟩ | ⟨pre, post, hp⟩)
      · exact ⟨[], post, by simpa using hpost⟩
      · exact ⟨c :: pre, post, by rw [hp]; simp⟩
    · rintro ⟨pre, post, hp⟩
      cases pre with
      | nil => exact Or.inl ⟨post, by simpa using hp⟩
      | cons p ps =>
        right
        rw [List.cons_append, List.cons_append] at hp
        obtain ⟨h1, h2⟩ := List.cons.inj hp
        exact ⟨ps, post, h2⟩

/-- C9: `check_model_available` returns true exactly when some registered
model name (each entry's `name` field, `""` when missing) contains the
requested model name as a substring — loose containment, not equality —
and any request-layer failure during the check surfaces as the
connectivity error kind (`OllamaConnectionError`) rather than being
swallowed or returned as false. -/
theorem claim_C9_check_model_available :
    (∀ (model : String) (entries : List (Option String)),
      check_model_available model (.ok entries) = .ok true ↔
      ∃ registered ∈ entries.map (fun o => o.getD ""), ∃ pre post,
        registered.toList = pre ++ model.toList ++ post) ∧
    (∀ (model : String) (f : FetchFailure), ∃ msg : String,
      check_model_available model (.error f) = .error (.ollamaConnectionError msg)) := by
  constructor
  · intro model entries
    simp only [check_model_available, Except.ok.injEq]
    rw [show ((entries.map (fun o => o.getD "")).any
          (fun m => hasSubstr model.toList m.toList) = true) ↔
        ∃ m ∈ entries.map (fun o => o.getD ""),
          hasSubstr model.toList m.toList = true from List.any_eq_true]
    constructor
    · rintro ⟨m, hm, hsub⟩
      exact ⟨m, hm, (hasSubstr_iff model.toList m.toList).1 hsub⟩
    · rintro ⟨m, hm, hsub⟩
      exact ⟨m, hm, (hasSubstr_iff model.toList m.toList).2 hsub⟩
  · intro model f
    cases f with
    | httpError e => exact ⟨_, rfl⟩
    | otherError e => exact ⟨_, rfl⟩

/-- Witness for C9: the model list `["llama3:8b"]` loosely matches the
request "llama" (substring, not equality), and an HTTP-layer failure is
wrapped into the connectivity error kind. -/
theorem claim_C9_witness :
    check_model_available "llama" (.ok [some "llama3:8b"]) = .ok true ∧
    check_model_available "llama" (.error (.httpError "boom")) =
      .error (.ollamaConnectionError "Error checking model availability: boom") := by
  constructor
  · exact (claim_C9_check_model_available.1 "llama" [some "llama3:8b"]).2
      ⟨"llama3:8b", by simp, ⟨[], "3:8b".toList, by decide⟩⟩
  · rfl

/-- `accumulate` takes the texts strictly in order and stops at — and
includes — the first fragment with `done = true`, whatever follows it. -/
theorem accumulate_stops_at_final (f : StreamFragment) (rest : List StreamFragment) :
    ∀ pre : List StreamFragment, (∀ g ∈ pre, g.done = false) → f.done = true →
      accumulate (pre ++ f :: rest) = concatTexts pre ++ f.response := by
  intro pre
  induction pre with
  | nil =>
    intro _ hf
    simp [accumulate, concatTexts, hf]
  | cons g gs ih =>
    intro hpre hf
    have hg : g.done = false := hpre g (List.mem_cons_self g gs)
    have ih2 := ih (fun x hx => hpre x (List.mem_cons_of_mem g hx)) hf
    rw [List.cons_append, accumulate, if_neg (by simp [hg]), ih2, concatTexts,
      String.append_assoc]

/-- When no fragment is final, `accumulate` is the whole concatenation. -/
theorem accumulate_no_final :
    ∀ fs : List StreamFragment, (∀ g ∈ fs, g.done = false) →
      accumulate fs = concatTexts fs := by
  intro fs
  induction fs with
  | nil => intro _; rfl
  | cons g gs ih =>
    intro h
    have hg : g.done = false := h g (List.mem_cons_self g gs)
    rw [accumulate, if_neg (by simp [hg]),
      ih (fun x hx => h x (List.mem_cons_of_mem g hx)), concatTexts]

/-- C6: the streaming decoder concatenates the `response` fields strictly in
line order and stops accumulating at the first `done = true` (conjuncts 5
and 6 characterise the accumulator); the claim's concrete body decodes to
`"ab"` (conjunct 1); the empty body, and more generally any body with zero
parseable lines, fails with the response-validity error kind instead of
returning an empty analysis (conjuncts 2 and 3); and a body with at least
one parseable line decodes to the accumulation of its parsed fragments in
order (conjunct 4). -/
theorem claim_C6_streaming_decoder :
    decode_stream "\x7b\"response\":\"a\",\"done\":false\x7d\n\x7b\"response\":\"b\",\"done\":true\x7d\n" = .ok "ab" ∧
    (∃ msg, decode_stream "" = .error (.ollamaResponseError msg)) ∧
    (∀ body : String, (splitLines body.toList).filterMap parseFragment = [] →
      ∃ msg, decode_stream body = .error (.ollamaResponseError msg)) ∧
    (∀ (body : String) (frags : List StreamFragment),
      (splitLines body.toList).filterMap parseFragment = frags → frags ≠ [] →
      decode_stream body = .ok (accumulate frags)) ∧
    (∀ (f : StreamFragment) (rest pre : List StreamFragment),
      (∀ g ∈ pre, g.done = false) → f.done = true →
      accumulate (pre ++ f :: rest) = concatTexts pre ++ f.response) ∧
    (∀ fs : List StreamFragment, (∀ g ∈ fs, g.done = false) →
      accumulate fs = concatTexts fs) := by
  refine ⟨by decide, ⟨"Empty or unparseable response from Ollama", by decide⟩, ?_, ?_,
    accumulate_stops_at_final, accumulate_no_final⟩
  · intro body h
    refine ⟨"Empty or unparseable response from Ollama", ?_⟩
    simp only [decode_stream, h]
    rfl
  · intro body frags h hne
    simp only [decode_stream, h]
    rw [if_neg (by simp [List.isEmpty_iff, hne])]

/-- Witness for C6: a two-line body parses to two fragments and decodes to
their concatenation "line1line2". -/
theorem claim_C6_witness :
    decode_stream "\x7b\"response\": \"line1\", \"done\": false\x7d\n\x7b\"response\": \"line2\", \"done\": true\x7d\n" = .ok "line1line2" := by
  rw [claim_C6_streaming_decoder.2.2.2.1 _
    [{ response := "line1", done := false }, { response := "line2", done := true }]
    (by decide) (by decide)]
  decide

/-- Text with no fence occurrence splits into a single part. -/
theorem splitOnFence_no_fence :
    ∀ cs : List Char, hasSubstr fenceChars cs = false → splitOnFence cs = [cs] := by
  intro cs
  induction cs with
  | nil => intro _; rfl
  | cons a t ih =>
    intro hno
    rw [hasSubstr, Bool.or_eq_false_iff] at hno
    obtain ⟨hlead, htail⟩ := hno
    cases t with
    | nil => rfl
    | cons b t2 =>
      cases t2 with
      | nil => rfl
      | cons c rest =>
        have hcond : ¬((a == backquote && b == backquote && c == backquote) = true) := by
          intro hcc
          simp only [Bool.and_eq_true, beq_iff_eq] at hcc
          obtain ⟨⟨ha, hb⟩, hc⟩ := hcc
          subst ha; subst hb; subst hc
          simp [leadsWith, fenceChars] at hlead
        rw [splitOnFence, if_neg hcond, ih htail]

/-- C7: the extractor is a pure total function (it never raises, by
construction of the embedding); on the spec's concrete cases it returns the
first fenced block trimmed when the block's first non-blank line begins with
`FROM`, and the empty result when the block does not begin with `FROM` or
when the text has no fence (conjuncts 1-3); any text whose character list
holds no fence yields the empty result (conjunct 4); and on every input the
result is either empty or begins with `FROM` — a fenced block that is not a
Dockerfile is never surfaced (conjunct 5). -/
theorem claim_C7_extract_dockerfile :
    extract_dockerfile_content "# Analysis\n\n```dockerfile\nFROM python:3.9-slim\nWORKDIR /app\n```\n\nThis is much better!\n" = "FROM python:3.9-slim\nWORKDIR /app" ∧
    extract_dockerfile_content "\n```dockerfile\nRUN apt-get update\nWORKDIR /app\n```\n" = "" ∧
    extract_dockerfile_content "This is just plain text with no Dockerfile" = "" ∧
    (∀ text : String, hasSubstr fenceChars text.toList = false →
      extract_dockerfile_content text = "") ∧
    (∀ text : String, extract_dockerfile_content text = "" ∨
      leadsWith ("FROM".toList) (extract_dockerfile_content text).toList = true) := by
  refine ⟨by decide, by decide, by decide, ?_, ?_⟩
  · intro text hno
    rw [extract_dockerfile_content, splitOnFence_no_fence _ hno]
  · intro text
    rw [extract_dockerfile_content]
    rcases h : splitOnFence text.toList with _ | ⟨p1, t1⟩
    · exact Or.inl rfl
    · rcases t1 with _ | ⟨p2, t2⟩
      · exact Or.inl rfl
      · rcases t2 with _ | ⟨p3, t3⟩
        · exact Or.inl rfl
        · by_cases hlead : leadsWith ("FROM".toList)
              (joinLines (trimBlankLines (splitLines (dropHeaderLine p2)))) = true
          · right
            simp only [hlead, if_true]
            exact hlead
          · left
            simp only [hlead, if_false]
            rfl

/-- Witness for C7: text with no fence at all yields the empty result. -/
theorem claim_C7_witness :
    extract_dockerfile_content "no fence anywhere in this text" = "" := by
  exact claim_C7_extract_dockerfile.2.2.2.1 "no fence anywhere in this text" (by decide)
